import Mathlib

/-
Verification of the RaftKV repository: a replicated key-value store built
from a C++ application (in-memory persistent KV store, msgpack command
codec, state-machine gRPC service, HTTP ingress) and a Go sidecar
(hashicorp raft integration, join routine, management endpoint).

The development shallowly embeds the relevant source functions.  C++ and Go
strings are modelled as lists of characters (`Str`), so that the
character-level searching done by the sources (`std::string::find`,
`substr`, `getline`) can be stated and executed faithfully.  The
`std::unordered_map` backing the store is modelled as an association list
with unique keys; iteration order of the persistence step is the list
order (the C++ iteration order is unspecified, and none of the proved
statements depends on the order chosen).
-/

namespace RaftKV

/-- Strings of the C++/Go sources, modelled as lists of characters. -/
abbrev Str : Type := List Char

/-- The in-memory `std::unordered_map<std::string, std::string>` of
`PersistentKVStore`, modelled as an association list. -/
abbrev KVMap : Type := List (Str × Str)

/-- Lookup in the map (`store_.find(key)` of `PersistentKVStore::get`). -/
def KVMap.getVal (m : KVMap) (k : Str) : Option Str :=
  (m.find? (fun p => p.1 == k)).map Prod.snd

/-- Key membership (`store_.count(key) > 0` of `PersistentKVStore::contains`). -/
def KVMap.containsKey (m : KVMap) (k : Str) : Bool :=
  m.any (fun p => p.1 == k)

/-- Insert-or-overwrite (`store_[key] = value`). -/
def KVMap.setVal (m : KVMap) (k v : Str) : KVMap :=
  if m.any (fun p => p.1 == k) then
    m.map (fun p => if p.1 == k then (k, v) else p)
  else
    m ++ [(k, v)]

/-- Erasure (`store_.erase(key)`). -/
def KVMap.eraseVal (m : KVMap) (k : Str) : KVMap :=
  m.filter (fun p => p.1 != k)

/-- The state of a `PersistentKVStore`: the in-memory map `store_`, the
contents of the file at `db_path_`, and an instrumentation counter of how
many times `persist()` ran (used to state that a failed delete does not
rewrite the file). -/
structure KVStoreState where
  store : KVMap
  file : Str
  writeCount : Nat
deriving Repr, DecidableEq

/-- One pass of `PersistentKVStore::persist`: the file receives one line
`key=value\n` per entry of the map. -/
def render (m : KVMap) : Str :=
  m.foldr (fun p acc => p.1 ++ '=' :: p.2 ++ '\n' :: acc) []

/-- `PersistentKVStore::persist`: truncate the file and rewrite the whole
map. -/
def persist (s : KVStoreState) : KVStoreState :=
  { s with file := render s.store, writeCount := s.writeCount + 1 }

/-- `PersistentKVStore::set`: `store_[key] = value; persist();`. -/
def storeSet (s : KVStoreState) (k v : Str) : KVStoreState :=
  persist { s with store := s.store.setVal k v }

/-- `PersistentKVStore::get`. -/
def storeGet (s : KVStoreState) (k : Str) : Option Str :=
  s.store.getVal k

/-- `PersistentKVStore::remove`: erase, then persist only when a key was
actually erased; return whether it existed. -/
def storeRemove (s : KVStoreState) (k : Str) : KVStoreState × Bool :=
  let erased := s.store.containsKey k
  let s1 := { s with store := s.store.eraseVal k }
  if erased then (persist s1, true) else (s1, false)

/-- `std::getline` splitting used by `PersistentKVStore::load`: lines are
the maximal '\n'-free chunks; a trailing newline produces no extra empty
line. -/
def getlines (cs : Str) : List Str :=
  if h : cs = [] then []
  else
    (cs.takeWhile (fun c => c != '\n')) ::
      getlines (cs.drop ((cs.takeWhile (fun c => c != '\n')).length + 1))
termination_by cs.length
decreasing_by
  simp only [List.length_drop]
  have hlen : 0 < cs.length := List.length_pos.mpr h
  omega

/-- One line of `PersistentKVStore::load`: find the first '=', and when
present map the prefix to the suffix; a line without '=' is skipped. -/
def parseLine (m : KVMap) (line : Str) : KVMap :=
  let pre := line.takeWhile (fun c => c != '=')
  if pre.length = line.length then m
  else m.setVal pre (line.drop (pre.length + 1))

/-- `PersistentKVStore::load`: parse every line of the file into the map. -/
def loadMap (file : Str) : KVMap :=
  (getlines file).foldl parseLine []

/-- Constructing a `PersistentKVStore` over an existing file: the
constructor calls `load()`. -/
def storeFromFile (file : Str) : KVStoreState :=
  { store := loadMap file, file := file, writeCount := 0 }

/-! ## Command codec (`kv_command.hpp`) -/

/-- `enum class Operation`. -/
inductive Operation where
  | SET
  | DELETE
  | UNKNOWN
deriving Repr, DecidableEq

/-- `parse_operation`. -/
def parse_operation (op : Str) : Operation :=
  if op = "SET".toList then Operation.SET
  else if op = "DELETE".toList then Operation.DELETE
  else Operation.UNKNOWN

/-- `struct KVCommand`: the three string fields of the msgpack map. -/
structure KVCommand where
  op : Str
  key : Str
  value : Str
deriving Repr, DecidableEq

/-- `KVCommand::operation_type`. -/
def KVCommand.operation_type (c : KVCommand) : Operation :=
  parse_operation c.op

/-- `KVCommand::is_valid` (defined in the source but never called on the
apply path). -/
def KVCommand.is_valid (c : KVCommand) : Bool :=
  (c.operation_type != Operation.UNKNOWN) && !c.key.isEmpty

/-! ## State machine (`state_machine.hpp`)

`KVCommand::from_msgpack` either throws (malformed payload) or returns a
decoded command; the msgpack library itself is outside the repository, so
`StateMachineService::Apply` is embedded as a function of the decode
outcome (`Except`: `.error` is the thrown exception caught by the
`catch` block). -/

/-- The reply of `StateMachineService::Apply`: the `success` flag sent in
`ApplyResponse` and whether the returned gRPC status was `OK` (the catch
branch returns `INTERNAL` instead; in both cases the call returns and the
process keeps running). -/
structure ApplyReply where
  success : Bool
  grpcOk : Bool
deriving Repr, DecidableEq

/-- `StateMachineService::Apply`: dispatch on the decoded operation.  Note
that the source never consults `KVCommand::is_valid`. -/
def StateMachineService.Apply (decoded : Except Str KVCommand)
    (s : KVStoreState) : KVStoreState × ApplyReply :=
  match decoded with
  | Except.error _ => (s, { success := false, grpcOk := false })
  | Except.ok cmd =>
    match cmd.operation_type with
    | Operation.SET => (storeSet s cmd.key cmd.value, { success := true, grpcOk := true })
    | Operation.DELETE => ((storeRemove s cmd.key).1, { success := true, grpcOk := true })
    | Operation.UNKNOWN => (s, { success := false, grpcOk := true })

/-- A payload is rejected by the state machine when it fails to decode or
decodes to an operation that is neither SET nor DELETE. -/
def badPayload (decoded : Except Str KVCommand) : Bool :=
  match decoded with
  | Except.error _ => true
  | Except.ok cmd => cmd.operation_type == Operation.UNKNOWN

/-! ## Go sidecar proposal path (`internal/rpc/server.go`,
`raft_client.hpp`, `http_server.hpp`)

The raft engine (`hashicorp/raft`, outside the repository) is abstracted
as a function from the proposed payload and the timeout in seconds to an
optional error (`none` means the entry committed). -/

/-- The timeout passed by `Server.Propose` to `node.Apply`
(`5*time.Second`), in seconds. -/
def proposeTimeoutSeconds : Nat := 5

/-- `pb.ProposeResponse`. -/
structure ProposeResponse where
  success : Bool
  error : Str
deriving Repr, DecidableEq

/-- `Server.Propose` of `internal/rpc/server.go`: call the engine with a
5-second timeout; any engine error becomes `Success: false`. -/
def serverPropose (engine : Str → Nat → Option Str) (data : Str) :
    ProposeResponse :=
  match engine data proposeTimeoutSeconds with
  | some e => { success := false, error := e }
  | none => { success := true, error := [] }

/-- `GrpcRaftClient::propose`: forwards the payload over the local gRPC
hop (modelled as delivered) and returns `status.ok() && reply.success()`. -/
def grpcRaftClientPropose (engine : Str → Nat → Option Str)
    (payload : Str) : Bool :=
  (serverPropose engine payload).success

/-! ## HTTP ingress (`http_request.hpp`, `http_server.hpp`) -/

/-- The parsed `HttpRequest` value object (headers are dropped: only the
fields the handler consults are kept). -/
structure HttpRequest where
  method : Str
  path : Str
  query_string : Str
  body : Str
  is_msgpack : Bool
deriving Repr, DecidableEq

/-- `HttpResponse`. -/
structure HttpResponse where
  status_code : Nat
  body : Str
deriving Repr, DecidableEq

/-- `HttpResponse::ok`. -/
def HttpResponse.okResp (body : Str) : HttpResponse :=
  { status_code := 200, body := body }

/-- `HttpResponse::not_found` with its default body. -/
def HttpResponse.notFoundResp : HttpResponse :=
  { status_code := 404, body := "404 Not Found".toList }

/-- The routing test of the first branch of `KVHttpHandler::handle`:
`POST /insert-val` with msgpack content type. -/
def insertRoute (req : HttpRequest) : Bool :=
  req.method == "POST".toList && req.path == "/insert-val".toList && req.is_msgpack

/-- The routing test of the second branch of `KVHttpHandler::handle`:
`GET /get-val`. -/
def getRoute (req : HttpRequest) : Bool :=
  req.method == "GET".toList && req.path == "/get-val".toList

/-- In `HttpRequest::query_params`, the text from the current position up
to the next '=' (`substr(start, eq_pos - start)`); note it may span '&'
separators. -/
def eqSplitKey (r : Str) : Str := r.takeWhile (fun c => c != '=')

/-- The remaining text after that '='. -/
def afterEq (r : Str) : Str := r.drop ((eqSplitKey r).length + 1)

/-- The parameter value: the text after the '=' up to the next '&' (or the
end of the query string). -/
def ampValue (r : Str) : Str := (afterEq r).takeWhile (fun c => c != '&')

/-- The remaining text after that '&' (`start = amp_pos + 1`); empty when
no '&' followed, which ends the loop. -/
def afterAmp (r : Str) : Str := (afterEq r).drop ((ampValue r).length + 1)

/-- The loop of `HttpRequest::query_params`.  Each round searches for the
next '=' starting at the current position (`r` is the remaining suffix of
the query string); if none exists the loop breaks.  Otherwise the text up
to that '=' becomes the key, the text after it up to the next '&' becomes
the value, and the loop resumes after that '&'. -/
def queryParamsAux (r : Str) (params : KVMap) : KVMap :=
  if h : (eqSplitKey r).length = r.length then params
  else queryParamsAux (afterAmp r) (params.setVal (eqSplitKey r) (ampValue r))
termination_by r.length
decreasing_by
  have h1 := congrArg List.length (List.takeWhile_append_dropWhile (fun c => c != '=') r)
  simp only [List.length_append] at h1
  simp only [afterAmp, afterEq, ampValue, eqSplitKey, List.length_drop] at h ⊢
  omega

/-- `HttpRequest::query_params`. -/
def query_params (qs : Str) : KVMap :=
  queryParamsAux qs []

/-- `KVHttpHandler::handle_insert`: propose the raw body; always HTTP 200
with body "ok" or "error". -/
def handle_insert (propose : Str → Bool) (req : HttpRequest) : HttpResponse :=
  HttpResponse.okResp (if propose req.body then "ok".toList else "error".toList)

/-- `KVHttpHandler::handle_get`: look up the `key` query parameter, then
the store. -/
def handle_get (stor : KVStoreState) (req : HttpRequest) : HttpResponse :=
  match (query_params req.query_string).getVal "key".toList with
  | none => HttpResponse.okResp "Key Not Found".toList
  | some k =>
    match storeGet stor k with
    | some v => HttpResponse.okResp v
    | none => HttpResponse.okResp "Key Not Found".toList

/-- `KVHttpHandler::handle`: route to the two endpoints, else 404. -/
def handle (propose : Str → Bool) (stor : KVStoreState)
    (req : HttpRequest) : HttpResponse :=
  if insertRoute req then handle_insert propose req
  else if getRoute req then handle_get stor req
  else HttpResponse.notFoundResp

/-! ## Go sidecar configuration (`main.go`, `internal/config/config.go`)

Addresses are plain Lean `String`s here; no character-level searching is
needed beyond extracting the host before the ':'. -/

/-- The sidecar flags relevant to address handling and joining. -/
structure SidecarConfig where
  nodeID : String
  raftPort : String
  joinAddr : String
  raftAdvertise : String
deriving Repr, DecidableEq

/-- `Config.BindAddr` (and `bindAddr` of `main.go`): always the wildcard
interface. -/
def SidecarConfig.bindAddr (c : SidecarConfig) : String :=
  "0.0.0.0:" ++ c.raftPort

/-- `Config.AdvertiseAddr` (and `advertiseString` of `main.go`): the
`-advertise` host with the raft port when given, otherwise the bind
address. -/
def SidecarConfig.advertiseAddr (c : SidecarConfig) : String :=
  if c.raftAdvertise ≠ "" then c.raftAdvertise ++ ":" ++ c.raftPort
  else c.bindAddr

/-- The `peerAddress` sent by the join routine: `main.go` passes
`advertiseString` to `tryJoinCluster`, and the refactored binary passes
`cfg.AdvertiseAddr()` as the `RaftAddr` of the `Joiner`. -/
def SidecarConfig.joinPeerAddress (c : SidecarConfig) : String :=
  c.advertiseAddr

/-- The host part of a `host:port` address, as a character list. -/
def hostOf (s : String) : Str :=
  s.toList.takeWhile (fun c => c != ':')

/-! ## Join routines (`main.go` `tryJoinCluster` and the `cluster`
package's `Joiner.Join`)

Both loops are embedded as trace-producing functions over an environment
`env : Nat → Bool`, where `env i = true` means the `(i+1)`-th HTTP join
request would reach the leader and return status 200 (a connection error
or any other status is `false`).  The trace records every sleep (with its
duration in seconds) and every attempt, in order; `joined` is whether the
routine returned successfully and `critical` whether the CRITICAL message
was logged.  Both functions return normally in every case: neither source
routine calls `os.Exit` or `log.Fatal`. -/

/-- One observable event of a join routine. -/
inductive JoinEvent where
  | sleep (seconds : Nat)
  | attempt (n : Nat)
deriving Repr, DecidableEq

/-- The outcome of a join routine. -/
structure JoinResult where
  events : List JoinEvent
  joined : Bool
  critical : Bool
deriving Repr, DecidableEq

/-- The loop of `tryJoinCluster` in `main.go`: each of the up-to-20
iterations sleeps 2 seconds and then issues the request, returning on
status 200.  `i` is the 0-based index of the next attempt, `acc` the
reversed trace so far. -/
def tryJoinAux (env : Nat → Bool) : Nat → Nat → List JoinEvent → JoinResult
  | 0, _, acc => { events := acc.reverse, joined := false, critical := true }
  | remaining + 1, i, acc =>
    let acc2 := JoinEvent.attempt (i + 1) :: JoinEvent.sleep 2 :: acc
    if env i then { events := acc2.reverse, joined := true, critical := false }
    else tryJoinAux env remaining (i + 1) acc2

/-- `tryJoinCluster` of `main.go` (`for i := 0; i < 20; i++`, with the
trailing `CRITICAL` log when the loop exhausts). -/
def tryJoinCluster (env : Nat → Bool) : JoinResult :=
  tryJoinAux env 20 0 []

/-- The loop of `Joiner.Join` in the `cluster` package: the sleep happens
only when `i > 0`, so the first attempt is issued immediately; on
exhaustion `Join` returns an error and `JoinAsync` logs it as CRITICAL. -/
def joinerAux (env : Nat → Bool) : Nat → Nat → List JoinEvent → JoinResult
  | 0, _, acc => { events := acc.reverse, joined := false, critical := true }
  | remaining + 1, i, acc =>
    let acc1 := if i > 0 then JoinEvent.sleep 2 :: acc else acc
    let acc2 := JoinEvent.attempt (i + 1) :: acc1
    if env i then { events := acc2.reverse, joined := true, critical := false }
    else joinerAux env remaining (i + 1) acc2

/-- `Joiner.Join` with the `DefaultJoinConfig` settings (`MaxRetries: 20`,
`RetryInterval: 2 * time.Second`), as launched by `JoinAsync`. -/
def joinerJoin (env : Nat → Bool) : JoinResult :=
  joinerAux env 20 0 []

/-- Follows the spec's words (join routine, steps 1-5): sleep 2 seconds,
issue a join request, stop on HTTP 200; otherwise sleep 2 seconds and
retry, up to 20 attempts total; when all attempts fail, log CRITICAL and
keep running.  Written for comparison with the two embedded routines. -/
def specJoinLoop (env : Nat → Bool) : Nat → Nat → List JoinEvent → JoinResult
  | 0, _, acc => { events := acc.reverse, joined := false, critical := true }
  | remaining + 1, i, acc =>
    let acc2 := JoinEvent.attempt (i + 1) :: acc
    if env i then { events := acc2.reverse, joined := true, critical := false }
    else if remaining = 0 then { events := acc2.reverse, joined := false, critical := true }
    else specJoinLoop env remaining (i + 1) (JoinEvent.sleep 2 :: acc2)

/-- The join routine exactly as the spec narrates it: one initial
2-second sleep, then attempts separated by 2-second sleeps. -/
def specJoinRoutine (env : Nat → Bool) : JoinResult :=
  specJoinLoop env 20 0 [JoinEvent.sleep 2]

/-- The number of join requests recorded in a trace. -/
def attemptCount (events : List JoinEvent) : Nat :=
  events.countP (fun e => match e with | JoinEvent.attempt _ => true | _ => false)

/-! ## Concrete example inputs used by witnesses and counterexamples -/

/-- A store state with empty map and file. -/
def emptyKVState : KVStoreState :=
  { store := [], file := [], writeCount := 0 }

/-- An example configuration: `-join` set, `-advertise` not given. -/
def noAdvertiseConfig : SidecarConfig :=
  { nodeID := "node2", raftPort := "8088", joinAddr := "node1:6000",
    raftAdvertise := "" }

/-- A `POST /insert-val` request whose content type was not
`application/msgpack` (so the parser left `is_msgpack` false). -/
def nonMsgpackInsertReq : HttpRequest :=
  { method := "POST".toList, path := "/insert-val".toList, query_string := [],
    body := "payload".toList, is_msgpack := false }

/-- A well-formed msgpack `POST /insert-val` request. -/
def msgpackInsertReq : HttpRequest :=
  { method := "POST".toList, path := "/insert-val".toList, query_string := [],
    body := "p".toList, is_msgpack := true }

/-- An engine that commits every proposal. -/
def alwaysCommitEngine : Str → Nat → Option Str := fun _ _ => none

/-- A store already holding one clean entry. -/
def cleanStore : KVStoreState :=
  { store := [("x".toList, "y".toList)], file := [], writeCount := 0 }

/-- A `GET /get-val` request with the given query string. -/
def getValReq (qs : Str) : HttpRequest :=
  { method := "GET".toList, path := "/get-val".toList, query_string := qs,
    body := [], is_msgpack := false }

/-- A store that does hold the key `key`, to show that a '='-less query
string yields "Key Not Found" regardless of the store contents. -/
def keyParamStore : KVStoreState :=
  { store := [("key".toList, "v".toList)], file := [], writeCount := 0 }

/-! ## Association-list lemmas -/

theorem getVal_eraseVal_self (m : KVMap) (k : Str) :
    KVMap.getVal (m.eraseVal k) k = none := by
  induction m with
  | nil => rfl
  | cons p m ih =>
    by_cases hpk : p.1 = k
    · simpa [KVMap.eraseVal, List.filter_cons, hpk] using ih
    · rw [KVMap.eraseVal, List.filter_cons_of_pos (by simpa using hpk),
        KVMap.getVal, List.find?_cons_of_neg _ (by simpa using hpk)]
      rw [KVMap.eraseVal, KVMap.getVal] at ih
      exact ih

theorem containsKey_eraseVal_self (m : KVMap) (k : Str) :
    (m.eraseVal k).containsKey k = false := by
  induction m with
  | nil => rfl
  | cons p m ih =>
    by_cases hpk : p.1 = k
    · simpa [KVMap.eraseVal, List.filter_cons, hpk] using ih
    · rw [KVMap.eraseVal, List.filter_cons_of_pos (by simpa using hpk)]
      rw [KVMap.eraseVal] at ih
      simp [KVMap.containsKey, hpk] at ih ⊢

theorem eraseVal_of_not_containsKey (m : KVMap) (k : Str)
    (h : m.containsKey k = false) : m.eraseVal k = m := by
  induction m with
  | nil => rfl
  | cons p m ih =>
    simp only [KVMap.containsKey, List.any_cons, Bool.or_eq_false_iff] at h
    rw [KVMap.eraseVal, List.filter_cons_of_pos (by simpa using h.1)]
    have := ih (by simpa [KVMap.containsKey] using h.2)
    rw [KVMap.eraseVal] at this
    rw [this]

theorem getVal_append_single (m : KVMap) (k v : Str)
    (h : m.any (fun p => p.1 == k) = false) :
    KVMap.getVal (m ++ [(k, v)]) k = some v := by
  induction m with
  | nil => simp [KVMap.getVal, List.find?]
  | cons p m ih =>
    simp only [List.any_cons, Bool.or_eq_false_iff] at h
    rw [List.cons_append, KVMap.getVal,
      List.find?_cons_of_neg _ (by simp [h.1])]
    exact ih h.2

theorem getVal_map_replace (m : KVMap) (k v : Str)
    (hany : m.any (fun p => p.1 == k) = true) :
    KVMap.getVal (m.map (fun p => if p.1 == k then (k, v) else p)) k = some v := by
  induction m with
  | nil => simp at hany
  | cons p m ih =>
    simp only [List.any_cons, Bool.or_eq_true] at hany
    by_cases hpk : p.1 = k
    · rw [List.map_cons, if_pos (by simpa using hpk), KVMap.getVal,
        List.find?_cons_of_pos _ (by simp)]
      rfl
    · have hm : m.any (fun q => q.1 == k) = true := by
        rcases hany with h1 | h1
        · exact absurd h1 (by simp [hpk])
        · exact h1
      rw [List.map_cons, if_neg (by simpa using hpk), KVMap.getVal,
        List.find?_cons_of_neg _ (by simpa using hpk)]
      rw [KVMap.getVal] at ih
      exact ih hm

theorem getVal_setVal_self (m : KVMap) (k v : Str) :
    KVMap.getVal (m.setVal k v) k = some v := by
  rw [KVMap.setVal]
  cases hany : m.any (fun p => p.1 == k) with
  | false =>
    rw [if_neg (by simp)]
    exact getVal_append_single m k v hany
  | true =>
    rw [if_pos rfl]
    exact getVal_map_replace m k v hany

/-! ## takeWhile / drop helpers for line and query parsing -/

theorem takeWhile_eq_self_of_forall (p : Char → Bool) (l : Str)
    (h : ∀ c ∈ l, p c = true) : l.takeWhile p = l := by
  induction l with
  | nil => rfl
  | cons c cs ih =>
    rw [List.takeWhile_cons, h c (by simp)]
    rw [ih (fun c hc => h c (by simp [hc]))]
    rfl

theorem takeWhile_append_stop (p : Char → Bool) (l t : Str) (c0 : Char)
    (hl : ∀ c ∈ l, p c = true) (hc : p c0 = false) :
    (l ++ c0 :: t).takeWhile p = l := by
  induction l with
  | nil => simp [List.takeWhile_cons, hc]
  | cons c cs ih =>
    rw [List.cons_append, List.takeWhile_cons, hl c (by simp)]
    rw [ih (fun c hc2 => hl c (by simp [hc2]))]
    rfl

theorem drop_append_cons (l t : Str) (c0 : Char) :
    (l ++ c0 :: t).drop (l.length + 1) = t := by
  rw [show l ++ c0 :: t = (l ++ [c0]) ++ t by simp,
    show l.length + 1 = (l ++ [c0]).length by simp]
  exact List.drop_left ..

/-! ## Round-trip lemmas for persist followed by load -/

theorem getlines_render (m : KVMap)
    (hm : ∀ p ∈ m, '\n' ∉ p.1 ∧ '\n' ∉ p.2) :
    getlines (render m) = m.map (fun p => p.1 ++ '=' :: p.2) := by
  induction m with
  | nil => simp [render, getlines]
  | cons q m ih =>
    have hline : render (q :: m) = (q.1 ++ '=' :: q.2) ++ '\n' :: render m := by
      simp [render]
    have hfree : ∀ c ∈ q.1 ++ '=' :: q.2, (c != '\n') = true := by
      intro c hc
      rcases List.mem_append.mp hc with h1 | h1
      · have := (hm q (by simp)).1
        simp only [bne_iff_ne, ne_eq]
        intro hcn
        exact this (hcn ▸ h1)
      · rcases List.mem_cons.mp h1 with h2 | h2
        · simp [h2]
        · have := (hm q (by simp)).2
          simp only [bne_iff_ne, ne_eq]
          intro hcn
          exact this (hcn ▸ h2)
    rw [hline, getlines]
    rw [dif_neg (by simp)]
    rw [takeWhile_append_stop _ _ _ _ hfree (by simp), drop_append_cons]
    rw [ih (fun p hp => hm p (by simp [hp]))]
    simp

theorem parseLine_kv (macc : KVMap) (k v : Str) (hk : '=' ∉ k) :
    parseLine macc (k ++ '=' :: v) = macc.setVal k v := by
  have hfree : ∀ c ∈ k, (c != '=') = true := by
    intro c hc
    simp only [bne_iff_ne, ne_eq]
    intro hcn
    exact hk (hcn ▸ hc)
  have hpre : (k ++ '=' :: v).takeWhile (fun c => c != '=') = k :=
    takeWhile_append_stop _ _ _ _ hfree (by simp)
  rw [parseLine]
  simp only [hpre]
  rw [if_neg (by simp), drop_append_cons]

theorem foldl_parseLine_map (m : KVMap) (hm : ∀ p ∈ m, '=' ∉ p.1) :
    ∀ acc : KVMap,
      (m.map (fun p => p.1 ++ '=' :: p.2)).foldl parseLine acc
        = m.foldl (fun a p => a.setVal p.1 p.2) acc := by
  induction m with
  | nil => intro acc; rfl
  | cons q m ih =>
    intro acc
    rw [List.map_cons, List.foldl_cons, List.foldl_cons,
      parseLine_kv acc q.1 q.2 (hm q (by simp))]
    exact ih (fun p hp => hm p (by simp [hp])) _

theorem setVal_fresh (acc : KVMap) (k v : Str)
    (h : acc.containsKey k = false) :
    acc.setVal k v = acc ++ [(k, v)] := by
  simp only [KVMap.containsKey] at h
  rw [KVMap.setVal, if_neg (by simp [h])]

theorem foldl_setVal_eq_append (m : KVMap) :
    ∀ acc : KVMap, (m.map Prod.fst).Nodup →
      (∀ p ∈ m, acc.containsKey p.1 = false) →
      m.foldl (fun a p => a.setVal p.1 p.2) acc = acc ++ m := by
  induction m with
  | nil => intro acc _ _; simp
  | cons q m ih =>
    intro acc hnd hfresh
    rw [List.foldl_cons, setVal_fresh acc q.1 q.2 (hfresh q (by simp))]
    rw [List.map_cons, List.nodup_cons] at hnd
    have hfresh2 : ∀ p ∈ m, KVMap.containsKey (acc ++ [(q.1, q.2)]) p.1 = false := by
      intro p hp
      simp only [KVMap.containsKey, List.any_append]
      have h1 : acc.any (fun r => r.1 == p.1) = false := hfresh p (by simp [hp])
      have h2 : q.1 ≠ p.1 := by
        intro he
        exact hnd.1 (he ▸ List.mem_map_of_mem Prod.fst hp)
      simp only [KVMap.containsKey] at h1
      simp [h1, h2]
    rw [ih (acc ++ [(q.1, q.2)]) hnd.2 hfresh2]
    simp

theorem loadMap_render (m : KVMap)
    (hm : ∀ p ∈ m, '=' ∉ p.1 ∧ '\n' ∉ p.1 ∧ '\n' ∉ p.2)
    (hnd : (m.map Prod.fst).Nodup) :
    loadMap (render m) = m := by
  rw [loadMap, getlines_render m (fun p hp => ⟨(hm p hp).2.1, (hm p hp).2.2⟩)]
  rw [foldl_parseLine_map m (fun p hp => (hm p hp).1) []]
  have := foldl_setVal_eq_append m [] hnd (by intro p _; rfl)
  rw [this]
  rfl

/-! ## setVal preservation lemmas -/

theorem setVal_forall (m : KVMap) (k v : Str) (P : Str × Str → Prop)
    (hm : ∀ p ∈ m, P p) (hkv : P (k, v)) :
    ∀ p ∈ m.setVal k v, P p := by
  intro p hp
  rw [KVMap.setVal] at hp
  by_cases hany : m.any (fun q => q.1 == k) = true
  · rw [if_pos hany] at hp
    rcases List.mem_map.mp hp with ⟨q, hq, hqe⟩
    by_cases hqk : q.1 = k
    · rw [if_pos (by simpa using hqk)] at hqe
      exact hqe ▸ hkv
    · rw [if_neg (by simpa using hqk)] at hqe
      exact hqe ▸ hm q hq
  · rw [if_neg hany] at hp
    rcases List.mem_append.mp hp with h1 | h1
    · exact hm p h1
    · rcases List.mem_singleton.mp h1 with rfl
      exact hkv

theorem nodup_keys_setVal (m : KVMap) (k v : Str)
    (hnd : (m.map Prod.fst).Nodup) :
    ((m.setVal k v).map Prod.fst).Nodup := by
  rw [KVMap.setVal]
  cases hany : m.any (fun q => q.1 == k) with
  | true =>
    rw [if_pos rfl, List.map_map]
    have : m.map (Prod.fst ∘ fun p => if p.1 == k then (k, v) else p)
        = m.map Prod.fst := by
      refine List.map_congr_left ?_
      intro p _
      by_cases hpk : p.1 = k
      · simp [Function.comp, hpk]
      · simp [Function.comp, hpk]
    rw [this]
    exact hnd
  | false =>
    rw [if_neg (by simp), List.map_append]
    rw [List.nodup_append]
    refine ⟨hnd, by simp, ?_⟩
    intro a ha
    rcases List.mem_map.mp ha with ⟨q, hq, hqe⟩
    have hq1 : (q.1 == k) = false := by
      have h2 := List.any_eq_false.mp hany
      simpa using h2 q hq
    simp only [List.map_cons, List.map_nil, List.mem_singleton]
    intro he
    simp [hqe, he] at hq1

/-! ## Join routine lemmas -/

theorem tryJoinAux_zero (env : Nat → Bool) (i : Nat) (acc : List JoinEvent) :
    tryJoinAux env 0 i acc
      = { events := acc.reverse, joined := false, critical := true } := rfl

theorem tryJoinAux_succ (env : Nat → Bool) (r i : Nat) (acc : List JoinEvent) :
    tryJoinAux env (r + 1) i acc
      = if env i then
          { events := (JoinEvent.attempt (i + 1) :: JoinEvent.sleep 2 :: acc).reverse,
            joined := true, critical := false }
        else tryJoinAux env r (i + 1)
          (JoinEvent.attempt (i + 1) :: JoinEvent.sleep 2 :: acc) := rfl

theorem specJoinLoop_succ (env : Nat → Bool) (r i : Nat) (acc : List JoinEvent) :
    specJoinLoop env (r + 1) i acc
      = if env i then
          { events := (JoinEvent.attempt (i + 1) :: acc).reverse,
            joined := true, critical := false }
        else if r = 0 then
          { events := (JoinEvent.attempt (i + 1) :: acc).reverse,
            joined := false, critical := true }
        else specJoinLoop env r (i + 1)
          (JoinEvent.sleep 2 :: JoinEvent.attempt (i + 1) :: acc) := rfl

theorem joinerAux_zero (env : Nat → Bool) (i : Nat) (acc : List JoinEvent) :
    joinerAux env 0 i acc
      = { events := acc.reverse, joined := false, critical := true } := rfl

theorem joinerAux_succ (env : Nat → Bool) (r i : Nat) (acc : List JoinEvent) :
    joinerAux env (r + 1) i acc
      = if env i then
          { events := (JoinEvent.attempt (i + 1) ::
              (if i > 0 then JoinEvent.sleep 2 :: acc else acc)).reverse,
            joined := true, critical := false }
        else joinerAux env r (i + 1)
          (JoinEvent.attempt (i + 1) ::
            (if i > 0 then JoinEvent.sleep 2 :: acc else acc)) := rfl

theorem tryJoinAux_eq_spec (env : Nat → Bool) :
    ∀ r i acc, tryJoinAux env (r + 1) i acc
      = specJoinLoop env (r + 1) i (JoinEvent.sleep 2 :: acc) := by
  intro r
  induction r with
  | zero =>
    intro i acc
    rw [tryJoinAux_succ, specJoinLoop_succ]
    cases he : env i with
    | true => simp [he]
    | false => simp [he, tryJoinAux_zero]
  | succ r ih =>
    intro i acc
    rw [tryJoinAux_succ, specJoinLoop_succ]
    cases he : env i with
    | true => simp [he]
    | false =>
      simp only [he, Bool.false_eq_true, if_false, Nat.succ_ne_zero]
      exact ih (i + 1) (JoinEvent.attempt (i + 1) :: JoinEvent.sleep 2 :: acc)

theorem joinerAux_events_prefix (env : Nat → Bool) :
    ∀ rem i acc, ∃ t, (joinerAux env rem i acc).events = acc.reverse ++ t := by
  intro rem
  induction rem with
  | zero => intro i acc; exact ⟨[], by simp [joinerAux_zero]⟩
  | succ rem ih =>
    intro i acc
    rw [joinerAux_succ]
    cases he : env i with
    | true =>
      refine ⟨(if i > 0 then [JoinEvent.sleep 2] else []) ++ [JoinEvent.attempt (i + 1)], ?_⟩
      by_cases hi : i > 0 <;> simp [he, hi]
    | false =>
      simp only [he, Bool.false_eq_true, if_false]
      rcases ih (i + 1) (JoinEvent.attempt (i + 1) ::
        (if i > 0 then JoinEvent.sleep 2 :: acc else acc)) with ⟨t, ht⟩
      refine ⟨((if i > 0 then [JoinEvent.sleep 2] else []) ++ [JoinEvent.attempt (i + 1)]) ++ t, ?_⟩
      rw [ht]
      by_cases hi : i > 0 <;> simp [hi]

theorem joinerJoin_first_event (env : Nat → Bool) :
    (joinerJoin env).events.head? = some (JoinEvent.attempt 1) := by
  rw [joinerJoin, show (20 : Nat) = 19 + 1 from rfl, joinerAux_succ]
  cases he : env 0 with
  | true => simp [he]
  | false =>
    rcases joinerAux_events_prefix env 19 1
      [JoinEvent.attempt 1] with ⟨t, ht⟩
    simp [he, ht]

theorem joinerAux_attemptCount (env : Nat → Bool) :
    ∀ rem i acc, attemptCount (joinerAux env rem i acc).events
      = attemptCount acc
        + min rem (((List.range rem).takeWhile (fun j => !env (i + j))).length + 1) := by
  intro rem
  induction rem with
  | zero =>
    intro i acc
    simp [joinerAux_zero, attemptCount, List.countP_reverse]
  | succ rem ih =>
    intro i acc
    have hshift : (fun j => !env (i + (j + 1))) = (fun j => !env (i + 1 + j)) :=
      funext fun j => by rw [show i + (j + 1) = i + 1 + j by omega]
    have hcomp : ((fun j => !env (i + j)) ∘ Nat.succ) = (fun j => !env (i + (j + 1))) :=
      funext fun j => rfl
    rw [joinerAux_succ]
    cases he : env i with
    | true =>
      have hrange : (List.range (rem + 1)).takeWhile (fun j => !env (i + j)) = [] := by
        rw [List.range_succ_eq_map, List.takeWhile_cons]
        simp [he]
      rw [if_pos rfl, hrange]
      have hcount : attemptCount ((JoinEvent.attempt (i + 1) ::
          (if i > 0 then JoinEvent.sleep 2 :: acc else acc)).reverse)
          = attemptCount acc + 1 := by
        by_cases hi : i > 0 <;>
          simp [hi, attemptCount, List.countP_reverse, List.countP_cons]
      simp only [hcount, List.length_nil]
      omega
    | false =>
      have hrange : ((List.range (rem + 1)).takeWhile (fun j => !env (i + j))).length
          = ((List.range rem).takeWhile (fun j => !env (i + 1 + j))).length + 1 := by
        rw [List.range_succ_eq_map, List.takeWhile_cons]
        simp only [Nat.add_zero, he, Bool.not_false, if_pos]
        rw [List.takeWhile_map, hcomp, hshift]
        simp
      rw [if_neg (by simp [he])]
      rw [ih (i + 1) (JoinEvent.attempt (i + 1) ::
        (if i > 0 then JoinEvent.sleep 2 :: acc else acc))]
      have hacc2 : attemptCount (JoinEvent.attempt (i + 1) ::
          (if i > 0 then JoinEvent.sleep 2 :: acc else acc))
          = attemptCount acc + 1 := by
        by_cases hi : i > 0 <;> simp [hi, attemptCount, List.countP_cons]
      rw [hacc2, hrange]
      omega

theorem joinerAux_joined (env : Nat → Bool) :
    ∀ rem i acc,
      (joinerAux env rem i acc).joined = (List.range rem).any (fun j => env (i + j)) ∧
      (joinerAux env rem i acc).critical
        = !((List.range rem).any (fun j => env (i + j))) := by
  intro rem
  induction rem with
  | zero => intro i acc; simp [joinerAux_zero]
  | succ rem ih =>
    intro i acc
    have hshift : (fun j => env (i + (j + 1))) = (fun j => env (i + 1 + j)) :=
      funext fun j => by rw [show i + (j + 1) = i + 1 + j by omega]
    have hcomp : ((fun j => env (i + j)) ∘ Nat.succ) = (fun j => env (i + (j + 1))) :=
      funext fun j => rfl
    have hany : (List.range (rem + 1)).any (fun j => env (i + j))
        = (env i || (List.range rem).any (fun j => env (i + 1 + j))) := by
      rw [List.range_succ_eq_map]
      simp only [List.any_cons, Nat.add_zero, List.any_map]
      rw [hcomp, hshift]
    rw [joinerAux_succ]
    cases he : env i with
    | true => simp [he, hany]
    | false =>
      rw [if_neg (by simp [he]), hany]
      simp only [he, Bool.false_or]
      exact ih (i + 1) _

/-! ## Claim theorems -/

/-- Claim C7: for every key `k` and every store state, `Delete(k)`
(`PersistentKVStore::remove`) removes `k` from the mapping if present and
returns true exactly when `k` was present immediately before the call. -/
theorem remove_returns_existed (s : KVStoreState) (k : Str) :
    (storeRemove s k).2 = s.store.containsKey k ∧
    storeGet (storeRemove s k).1 k = none ∧
    KVMap.containsKey (storeRemove s k).1.store k = false := by
  cases h : s.store.containsKey k with
  | true =>
    refine ⟨by simp [storeRemove, h], ?_, ?_⟩
    · simp [storeRemove, h, storeGet, persist, getVal_eraseVal_self]
    · simp [storeRemove, h, persist, containsKey_eraseVal_self]
  | false =>
    refine ⟨by simp [storeRemove, h], ?_, ?_⟩
    · simp [storeRemove, h, storeGet, getVal_eraseVal_self]
    · simp [storeRemove, h, containsKey_eraseVal_self]

/-- Claim C8: for every key `k` absent from the store, `remove(k)` returns
false and leaves the whole store state (in-memory map, file contents, and
the count of `persist()` invocations) exactly as it was. -/
theorem remove_absent_frame (s : KVStoreState) (k : Str)
    (h : s.store.containsKey k = false) :
    storeRemove s k = (s, false) := by
  simp [storeRemove, h, eraseVal_of_not_containsKey s.store k h]

/-- Witness for C8 at a concrete store and absent key. -/
theorem remove_absent_frame_witness :
    KVMap.containsKey ([(['a'], ['b'])] : KVMap) ['x'] = false ∧
    storeRemove { store := [(['a'], ['b'])], file := [], writeCount := 0 } ['x']
      = ({ store := [(['a'], ['b'])], file := [], writeCount := 0 }, false) :=
  ⟨by decide, remove_absent_frame _ _ (by decide)⟩

/-- Claim C1: the spec says a committed SET/DELETE command with an empty
key is a no-op on apply.  The code violates this: `Apply` never consults
`KVCommand::is_valid`, so a SET with empty key inserts the mapping
`"" : "v"` into the store (and reports success), even though the source's
own validity predicate rejects the command. -/
theorem apply_set_empty_key_mutates_store :
    (StateMachineService.Apply
        (Except.ok { op := "SET".toList, key := [], value := "v".toList })
        { store := [], file := [], writeCount := 0 }).1.store
      = [([], "v".toList)] ∧
    KVCommand.is_valid { op := "SET".toList, key := [], value := "v".toList }
      = false ∧
    (StateMachineService.Apply
        (Except.ok { op := "SET".toList, key := [], value := "v".toList })
        { store := [], file := [], writeCount := 0 }).2.success = true := by
  decide

/-- Claim C3: the spec requires the join routine to send the
`AdvertiseAddr` and never the wildcard `BindAddr`.  The code violates
this for configurations without `-advertise`: the advertise string falls
back to the bind address, so the join request carries the wildcard host
`0.0.0.0`. -/
theorem join_sends_wildcard_without_advertise :
    noAdvertiseConfig.joinPeerAddress = "0.0.0.0:8088" ∧
    noAdvertiseConfig.joinPeerAddress = noAdvertiseConfig.bindAddr ∧
    hostOf noAdvertiseConfig.joinPeerAddress = "0.0.0.0".toList := by
  decide

/-- Claim C4: every payload that fails to decode, or decodes to a command
whose op is neither SET nor DELETE, leaves the KV store (map, file and
persist counter) unchanged, reports success=false to the engine, and is
not fatal: any subsequent entry is applied exactly as it would have been
without the bad entry. -/
theorem apply_bad_payload_noop (d d2 : Except Str KVCommand)
    (s : KVStoreState) (h : badPayload d = true) :
    (StateMachineService.Apply d s).1 = s ∧
    (StateMachineService.Apply d s).2.success = false ∧
    StateMachineService.Apply d2 (StateMachineService.Apply d s).1
      = StateMachineService.Apply d2 s := by
  rcases d with e | cmd
  · exact ⟨rfl, rfl, rfl⟩
  · simp only [badPayload, beq_iff_eq] at h
    simp [StateMachineService.Apply, h]

/-- Witness for C4: an op `UPSERT` payload applied to the empty store,
followed by a SET. -/
theorem apply_bad_payload_noop_witness :
    badPayload (Except.ok { op := "UPSERT".toList, key := "x".toList, value := [] }) = true ∧
    ((StateMachineService.Apply
        (Except.ok { op := "UPSERT".toList, key := "x".toList, value := [] })
        emptyKVState).1 = emptyKVState ∧
     (StateMachineService.Apply
        (Except.ok { op := "UPSERT".toList, key := "x".toList, value := [] })
        emptyKVState).2.success = false ∧
     StateMachineService.Apply
        (Except.ok { op := "SET".toList, key := "k".toList, value := "v".toList })
        (StateMachineService.Apply
          (Except.ok { op := "UPSERT".toList, key := "x".toList, value := [] })
          emptyKVState).1
      = StateMachineService.Apply
          (Except.ok { op := "SET".toList, key := "k".toList, value := "v".toList })
          emptyKVState) :=
  ⟨by decide, apply_bad_payload_noop _ _ _ (by decide)⟩

/-- Claim C5: for every proposal through the ingress insert endpoint, the
coordinator calls the raft engine's Apply with the 5-second timeout, the
outcome is a boolean that is true exactly when the engine reports no
error, and the ingress HTTP response is always status 200 with body "ok"
on success and "error" on failure. -/
theorem insert_endpoint_outcome (engine : Str → Nat → Option Str)
    (stor : KVStoreState) (req : HttpRequest) (h : insertRoute req = true) :
    (handle (grpcRaftClientPropose engine) stor req).status_code = 200 ∧
    ((handle (grpcRaftClientPropose engine) stor req).body = "ok".toList
      ↔ engine req.body 5 = none) ∧
    ((handle (grpcRaftClientPropose engine) stor req).body = "error".toList
      ↔ engine req.body 5 ≠ none) := by
  cases he : engine req.body 5 with
  | none =>
    refine ⟨?_, ?_, ?_⟩ <;>
      simp [handle, h, handle_insert, grpcRaftClientPropose, serverPropose,
        proposeTimeoutSeconds, he, HttpResponse.okResp]
  | some e =>
    refine ⟨?_, ?_, ?_⟩ <;>
      simp [handle, h, handle_insert, grpcRaftClientPropose, serverPropose,
        proposeTimeoutSeconds, he, HttpResponse.okResp]

/-- Witness for C5: a msgpack insert request against a committing engine. -/
theorem insert_endpoint_outcome_witness :
    insertRoute msgpackInsertReq = true ∧
    ((handle (grpcRaftClientPropose alwaysCommitEngine) emptyKVState
        msgpackInsertReq).status_code = 200 ∧
     ((handle (grpcRaftClientPropose alwaysCommitEngine) emptyKVState
        msgpackInsertReq).body = "ok".toList
       ↔ alwaysCommitEngine msgpackInsertReq.body 5 = none) ∧
     ((handle (grpcRaftClientPropose alwaysCommitEngine) emptyKVState
        msgpackInsertReq).body = "error".toList
       ↔ alwaysCommitEngine msgpackInsertReq.body 5 ≠ none)) :=
  ⟨by decide, insert_endpoint_outcome _ _ _ (by decide)⟩

/-- Claim C9: the ingress handler dispatches only msgpack POST /insert-val
and GET /get-val; every other request gets the 404 response, and the raft
client is never consulted for it (the response is identical under any
propose function) — in particular a POST /insert-val whose content type
was not msgpack. -/
theorem handle_unrouted_requests (p1 p2 : Str → Bool) (stor : KVStoreState)
    (req : HttpRequest) (h1 : insertRoute req = false)
    (h2 : getRoute req = false) :
    handle p1 stor req = HttpResponse.notFoundResp ∧
    handle p1 stor req = handle p2 stor req := by
  constructor <;> simp [handle, h1, h2]

/-- Witness for C9: the non-msgpack POST /insert-val request. -/
theorem handle_unrouted_requests_witness :
    insertRoute nonMsgpackInsertReq = false ∧
    getRoute nonMsgpackInsertReq = false ∧
    (handle (fun _ => true) emptyKVState nonMsgpackInsertReq
        = HttpResponse.notFoundResp ∧
     handle (fun _ => true) emptyKVState nonMsgpackInsertReq
        = handle (fun _ => false) emptyKVState nonMsgpackInsertReq) :=
  ⟨by decide, by decide,
    handle_unrouted_requests _ _ _ _ (by decide) (by decide)⟩

/-- Claim C2 is false as stated for arbitrary keys and values: after
`Set("a=b", "c")` on an empty store, the persisted line `a=b=c` is parsed
back at its first '=' as the pair `("a", "b=c")`, so the rebuilt store no
longer contains the key `a=b`. -/
theorem persist_roundtrip_fails_for_eq_key :
    storeGet (storeFromFile ((storeSet emptyKVState "a=b".toList "c".toList).file))
        "a=b".toList = none ∧
    storeGet (storeFromFile ((storeSet emptyKVState "a=b".toList "c".toList).file))
        "a=b".toList ≠ some "c".toList := by
  have h1 : storeGet (storeFromFile ((storeSet emptyKVState "a=b".toList "c".toList).file))
      "a=b".toList = none := by
    simp [storeSet, emptyKVState, persist, render, KVMap.setVal, storeFromFile,
      loadMap, getlines, parseLine, storeGet, KVMap.getVal, List.find?]
  exact ⟨h1, by rw [h1]; decide⟩

/-- Claim C2 (amended): the persistence round trip `persist`-then-`load`
restores `Get(k)=v` after `Set(k,v)` provided the store's format is not
subverted: no key may contain '=' or a newline and no value may contain a
newline (the key/value separator and the line separator of the `kv.db`
format). -/
theorem persist_roundtrip_clean (s : KVStoreState) (k v : Str)
    (hk1 : '=' ∉ k) (hk2 : '\n' ∉ k) (hv : '\n' ∉ v)
    (hs : ∀ p ∈ s.store, '=' ∉ p.1 ∧ '\n' ∉ p.1 ∧ '\n' ∉ p.2)
    (hnd : (s.store.map Prod.fst).Nodup) :
    storeGet (storeFromFile ((storeSet s k v).file)) k = some v := by
  have hm : ∀ p ∈ s.store.setVal k v, '=' ∉ p.1 ∧ '\n' ∉ p.1 ∧ '\n' ∉ p.2 :=
    setVal_forall s.store k v _ hs ⟨hk1, hk2, hv⟩
  have hnd2 := nodup_keys_setVal s.store k v hnd
  have hfile : (storeSet s k v).file = render (s.store.setVal k v) := rfl
  rw [hfile]
  show KVMap.getVal (loadMap (render (s.store.setVal k v))) k = some v
  rw [loadMap_render _ hm hnd2]
  exact getVal_setVal_self ..

/-- Witness for the amended C2 at a concrete clean store. -/
theorem persist_roundtrip_clean_witness :
    ('=' ∉ "a".toList ∧ '\n' ∉ "a".toList ∧ '\n' ∉ "b".toList ∧
     (∀ p ∈ cleanStore.store, '=' ∉ p.1 ∧ '\n' ∉ p.1 ∧ '\n' ∉ p.2) ∧
     (cleanStore.store.map Prod.fst).Nodup) ∧
    storeGet (storeFromFile ((storeSet cleanStore "a".toList "b".toList).file))
        "a".toList = some "b".toList :=
  ⟨⟨by decide, by decide, by decide, by decide, by decide⟩,
   persist_roundtrip_clean cleanStore "a".toList "b".toList
     (by decide) (by decide) (by decide) (by decide) (by decide)⟩

/-- Claim C10 is false as stated: parsing does not stop at the '='-less
segment `a` of `a&b=c&d=e`; instead `a` is merged with `b` into the single
key `a&b`, and the later parameter `d` IS present in the parsed map. -/
theorem query_params_merges_eqless_segment :
    query_params "a&b=c&d=e".toList
      = [("a&b".toList, "c".toList), ("d".toList, "e".toList)] ∧
    KVMap.getVal (query_params "a&b=c&d=e".toList) "d".toList
      = some "e".toList := by
  have h1 : query_params "a&b=c&d=e".toList
      = [("a&b".toList, "c".toList), ("d".toList, "e".toList)] := by
    simp [query_params, queryParamsAux, eqSplitKey, afterEq, ampValue,
      afterAmp, KVMap.setVal]
  exact ⟨h1, by rw [h1]; decide⟩

/-- Claim C10 (amended): the query-string loop stops when the remaining
text contains no '=' at all; in particular a query string entirely free of
'=' (such as `key`) parses to the empty parameter map, and `GET /get-val`
with such a query string answers "Key Not Found" whatever the store
holds. -/
theorem query_params_no_eq_empty (qs : Str) (stor : KVStoreState)
    (p : Str → Bool) (h : ∀ c ∈ qs, c ≠ '=') :
    query_params qs = [] ∧
    handle p stor (getValReq qs) = HttpResponse.okResp "Key Not Found".toList := by
  have hkey : eqSplitKey qs = qs :=
    takeWhile_eq_self_of_forall _ _ (fun c hc => by simp [h c hc])
  have hq : query_params qs = [] := by
    rw [query_params, queryParamsAux, dif_pos (by rw [hkey])]
  have hins : insertRoute (getValReq qs) = false := rfl
  have hget : getRoute (getValReq qs) = true := rfl
  refine ⟨hq, ?_⟩
  rw [handle, hins, hget]
  simp [handle_get, getValReq, hq, KVMap.getVal]

/-- Witness for the amended C10: `?key` against a store that contains the
key `key`. -/
theorem query_params_no_eq_empty_witness :
    (∀ c ∈ "key".toList, c ≠ '=') ∧
    (query_params "key".toList = [] ∧
     handle (fun _ => true) keyParamStore (getValReq "key".toList)
       = HttpResponse.okResp "Key Not Found".toList) :=
  ⟨by decide, query_params_no_eq_empty _ _ _ (by decide)⟩

/-- Claim C6 is false as stated for the `cluster` package's `Joiner.Join`:
its first event is the first join request itself, with no 2-second sleep
before it (the sleep happens only before retries, `if i > 0`). -/
theorem joiner_first_attempt_unslept :
    (joinerJoin (fun _ => false)).events.head? = some (JoinEvent.attempt 1) ∧
    (joinerJoin (fun _ => false)).events.head? ≠ some (JoinEvent.sleep 2) := by
  decide

/-- Claim C6 (amended): `tryJoinCluster` of `main.go` behaves exactly as
the claim narrates — its outcome coincides with the spec's join routine
(initial 2-second sleep, attempt, stop at the first HTTP 200, otherwise
sleep 2 seconds and retry, at most 20 attempts, CRITICAL log and normal
return on exhaustion) for every environment.  The `cluster` package's
`Joiner.Join` differs only in the initial sleep: its first event is the
first attempt; it otherwise stops at the first 200 (making exactly
`min 20 (failed-prefix + 1)` attempts), joins exactly when one of the
first 20 attempts returns 200, and logs CRITICAL exactly otherwise. -/
theorem join_routines_characterized (env : Nat → Bool) :
    tryJoinCluster env = specJoinRoutine env ∧
    (joinerJoin env).events.head? = some (JoinEvent.attempt 1) ∧
    attemptCount (joinerJoin env).events
      = min 20 (((List.range 20).takeWhile (fun i => !env i)).length + 1) ∧
    (joinerJoin env).joined = (List.range 20).any env ∧
    (joinerJoin env).critical = !((List.range 20).any env) := by
  have hz : (fun j => env (0 + j)) = env := funext fun j => by rw [Nat.zero_add]
  have hzn : (fun j => !env (0 + j)) = (fun j => !env j) :=
    funext fun j => by rw [Nat.zero_add]
  refine ⟨?_, joinerJoin_first_event env, ?_, ?_, ?_⟩
  · rw [tryJoinCluster, specJoinRoutine]
    exact tryJoinAux_eq_spec env 19 0 []
  · rw [joinerJoin, joinerAux_attemptCount env 20 0 [], hzn]
    simp [attemptCount]
  · rw [joinerJoin, (joinerAux_joined env 20 0 []).1, hz]
  · rw [joinerJoin, (joinerAux_joined env 20 0 []).2, hz]

end RaftKV
